import Mathlib

/-!
Verification of the agent-orchestration core of the `autopilot` repository.

The development shallowly embeds the relevant TypeScript sources:

* `src/lib/activity.ts` — the agent message translator (`processAgentMessage`,
  `summarizeToolUse`).  Message payloads are untyped JavaScript values, so they
  are modelled by the inductive `JVal`; property access, truthiness, string
  conversion and method calls follow JavaScript runtime semantics, and a
  JavaScript `TypeError` is modelled by `Except.error`.
* `src/lib/prompt.ts` — the template renderer (`renderPrompt`,
  `sanitizePromptValue`).
* `src/lib/worktree.ts` — the best-effort worktree remover (`removeWorktree`);
  git subprocesses are modelled by an oracle mapping each git command to an
  optional stderr text, and the effects of the function (commands issued, log lines)
  are collected in a record.
* the GitHub status poller (`getPRStatus`).  The repository carries two
  revisions of this module: an early one whose aggregation is gated on every
  source having settled, and the current retry-based one that fast-fails.
  Both aggregations are embedded (`aggregateCISettled`, `aggregateCI`), and
  the network calls are made explicit as data arguments plus a query trace.

Timestamps (`Date.now()`) are passed in as an explicit `now : Nat` clock.
JavaScript numbers are modelled as integers; none of the proved properties
depend on fractional arithmetic.
-/

/-! ## Generic string helpers (kernel-reducible replacements for JS string ops) -/

/-- Models `Array.prototype.join` for a list of strings that are already strings. -/
def joinWith (sep : String) : List String → String
  | [] => ""
  | [x] => x
  | x :: rest => x ++ sep ++ joinWith sep rest

/-- Models `value.startsWith(pre)` on strings. -/
def jsStartsWith (s pre : String) : Bool := pre.data.isPrefixOf s.data

/-- Models `value.slice(n)` for a non-negative index: drop the first `n` characters.
(JS indexes UTF-16 units; for the prefix-stripping use below the two agree
because the dropped prefix is itself the matched string.) -/
def stringDrop (s : String) (n : Nat) : String := String.mk (s.data.drop n)

/-- Models `value.slice(0, n)`: take the first `n` characters. -/
def strTake (s : String) (n : Nat) : String := String.mk (s.data.take n)

/-- One step of `value.replace(/^\//, "")`: remove a single leading slash. -/
def dropLeadingSlashOnce (s : String) : String :=
  match s.data with
  | '/' :: rest => String.mk rest
  | _ => s

/-- Fuel-driven core of `String.prototype.replaceAll` with a plain-string
pattern: scan left to right, replace non-overlapping occurrences, and do not
rescan the replacement text.  The fuel is the input length, which bounds the
number of steps. -/
def replaceAllFuel (pat rep : List Char) : Nat → List Char → List Char
  | _, [] => []
  | 0, l => l
  | fuel + 1, c :: rest =>
    if pat.isPrefixOf (c :: rest) then rep ++ replaceAllFuel pat rep fuel ((c :: rest).drop pat.length)
    else c :: replaceAllFuel pat rep fuel rest

/-- Models `s.replaceAll(pat, rep)` for a non-empty plain-string pattern (the embedded
code only ever passes the non-empty pattern `&#123;&#123;KEY&#125;&#125;`; the
empty-pattern behaviour of JS is not needed and is modelled as the identity). -/
def replaceAll (s pat rep : String) : String :=
  if pat.isEmpty then s
  else String.mk (replaceAllFuel pat.data rep.data s.data.length s.data)

/-- Fuel-driven core of `String.prototype.split` with a plain-string
separator. -/
def splitSepFuel (sep : List Char) : Nat → List Char → List Char → List (List Char)
  | 0, acc, l => [acc.reverse ++ l]
  | _ + 1, acc, [] => [acc.reverse]
  | fuel + 1, acc, c :: rest =>
    if sep.isPrefixOf (c :: rest) then
      acc.reverse :: splitSepFuel sep fuel [] ((c :: rest).drop sep.length)
    else
      splitSepFuel sep fuel (c :: acc) rest

/-- Models `s.split(sep)` for a non-empty plain-string separator (the embedded code
only splits on `"__"`). -/
def splitOnStr (s sep : String) : List String :=
  if sep.isEmpty then [s]
  else (splitSepFuel sep.data (s.data.length + 1) [] s.data).map String.mk

/-! ## A model of untyped JavaScript values -/

/-- An untyped JavaScript value, as flows through the agent message stream.
Numbers are modelled as integers and object field lists carry unique keys.  -/
inductive JVal where
  | null
  | undefined
  | bool (b : Bool)
  | num (n : Int)
  | str (s : String)
  | arr (elems : List JVal)
  | obj (fields : List (String × JVal))

/-- A JavaScript runtime exception (the embedded code can only hit
`TypeError`s). -/
inductive JsErr where
  | typeError (msg : String)
deriving DecidableEq

/-- Property access `v[k]` on a value that is not `null`/`undefined`:
objects look the key up, arrays and strings expose `length`, any other
receiver (or a missing key) yields `undefined`. -/
def propOf : JVal → String → JVal
  | .obj fields, k =>
    match fields.find? (fun f => f.1 == k) with
    | some f => f.2
    | none => .undefined
  | .arr elems, k => if k == "length" then .num elems.length else .undefined
  | .str s, k => if k == "length" then .num s.length else .undefined
  | _, _ => .undefined

/-- Property access `v.k`, which throws a `TypeError` on `null`/`undefined`
receivers exactly as JavaScript does. -/
def getProp (v : JVal) (k : String) : Except JsErr JVal :=
  match v with
  | .null => .error (.typeError ("Cannot read properties of null (reading " ++ k ++ ")"))
  | .undefined => .error (.typeError ("Cannot read properties of undefined (reading " ++ k ++ ")"))
  | _ => .ok (propOf v k)

/-- JavaScript truthiness.  (`NaN` does not arise: numbers are integers.) -/
def truthy : JVal → Bool
  | .null => false
  | .undefined => false
  | .bool b => b
  | .num n => n != 0
  | .str s => s != ""
  | .arr _ => true
  | .obj _ => true

/-- Is the value `null` or `undefined` (the `??` test)? -/
def isNullish : JVal → Bool
  | .null => true
  | .undefined => true
  | _ => false

/-- Strict equality `v === lit` against a string literal, the only form of
`===` the embedded code uses. -/
def isStr (v : JVal) (s : String) : Bool :=
  match v with
  | .str t => t == s
  | _ => false

mutual
/-- Models `String(v)`, the template-literal conversion of a JavaScript value. -/
def jsToString : JVal → String
  | .null => "null"
  | .undefined => "undefined"
  | .bool b => cond b "true" "false"
  | .num n => toString n
  | .str s => s
  | .obj _ => "[object Object]"
  | .arr l => jsArrBody l
termination_by structural v => v

/-- Models `Array.prototype.toString`: elements joined by `","`, with `null` and
`undefined` elements rendered as the empty string. -/
def jsArrBody : List JVal → String
  | [] => ""
  | x :: rest =>
    (match x with
     | .null => ""
     | .undefined => ""
     | v => jsToString v)
    ++ (if rest.isEmpty then "" else ",") ++ jsArrBody rest
termination_by structural l => l
end

/-- Models `Array.prototype.join(sep)`: elements converted as in a template literal,
with `null`/`undefined` rendered empty. -/
def jsJoinArr (sep : String) : List JVal → String
  | [] => ""
  | x :: rest =>
    (match x with
     | .null => ""
     | .undefined => ""
     | v => jsToString v)
    ++ (if rest.isEmpty then "" else sep) ++ jsJoinArr sep rest

/-- Method call `v.join(sep)`: defined on arrays, a `TypeError` otherwise. -/
def jsJoinMethod (v : JVal) (sep : String) : Except JsErr JVal :=
  match v with
  | .arr l => .ok (.str (jsJoinArr sep l))
  | .null => .error (.typeError ("Cannot read properties of null (reading join)"))
  | .undefined => .error (.typeError ("Cannot read properties of undefined (reading join)"))
  | _ => .error (.typeError ("join is not a function"))

/-- Method call `v.slice(0, n)`: defined on strings and arrays, a `TypeError`
otherwise. -/
def jsSlice0 (v : JVal) (n : Nat) : Except JsErr JVal :=
  match v with
  | .str s => .ok (.str (strTake s n))
  | .arr l => .ok (.arr (l.take n))
  | .null => .error (.typeError ("Cannot read properties of null (reading slice)"))
  | .undefined => .error (.typeError ("Cannot read properties of undefined (reading slice)"))
  | _ => .error (.typeError ("slice is not a function"))

/-- The `in` operator `k in v`: requires an object receiver. -/
def jsIn (k : String) (v : JVal) : Except JsErr Bool :=
  match v with
  | .obj fields => .ok (fields.any (fun f => f.1 == k))
  | .arr _ => .ok (k == "length")
  | _ => .error (.typeError ("Cannot use the in operator on a non-object"))

/-! ## `src/lib/activity.ts` -/

/-- Maps tool names to the input field used in their activity summary
(`TOOL_SUMMARY_FIELDS` in `activity.ts`, an object literal modelled as an
association list in source order). -/
def TOOL_SUMMARY_FIELDS : List (String × String) :=
  [("Read", "file_path"), ("Write", "file_path"), ("Edit", "file_path"),
   ("NotebookEdit", "notebook_path"), ("Bash", "command"), ("Glob", "pattern"),
   ("Grep", "pattern"), ("WebFetch", "url"), ("WebSearch", "query"),
   ("TodoWrite", "subject"), ("TaskCreate", "subject"), ("TaskUpdate", "taskId"),
   ("TaskOutput", "task_id"), ("TaskStop", "task_id"), ("TeamCreate", "team_name"),
   ("TeamDelete", "team_name"), ("ToolSearch", "query"), ("SendMessage", "recipient")]

/-- Shorten MCP tool names: `mcp__server__tool` becomes `server/tool`.
The runtime value reaching `name.startsWith` need not be a string, in which
case the call throws, so the embedding is fallible. -/
def shortToolName (name : JVal) : Except JsErr String :=
  match name with
  | .str s =>
    if jsStartsWith s "mcp__" then
      let parts := splitOnStr (stringDrop s 5) "__"
      if parts.length ≥ 2 then
        match parts.reverse with
        | last :: prev :: _ => .ok (prev ++ "/" ++ last)
        | _ => .ok ""
      else .ok (parts.headD "")
    else .ok s
  | _ => .error (.typeError ("name.startsWith is not a function"))

/-- The coercion at the top of `summarizeToolUse`:
`input !== null && typeof input === "object" ? input : &#123;&#125;`.
Arrays are objects in JavaScript; `null` and primitives fall back to an empty
object. -/
def objOrEmpty (input : JVal) : JVal :=
  match input with
  | .obj _ => input
  | .arr _ => input
  | _ => .obj []

/-- Embeds `summarizeToolUse(toolName, input, cwd?)` from `activity.ts`.  The table is
indexed by the property key `String(toolName)` as JavaScript object indexing
does; `cwd` comes from the code of the run itself and is kept as an optional Lean
string. -/
def summarizeToolUse (toolName : JVal) (input : JVal) (cwd : Option String) :
    Except JsErr String :=
  let inp := objOrEmpty input
  match TOOL_SUMMARY_FIELDS.find? (fun e => e.1 == jsToString toolName) with
  | some entry =>
    let raw := propOf inp entry.2
    let value := jsToString (if isNullish raw then .str "" else raw)
    let value :=
      match cwd with
      | some c =>
        if c != "" && jsStartsWith value c then
          dropLeadingSlashOnce (stringDrop value c.length)
        else value
      | none => value
    .ok (jsToString toolName ++ ": " ++ value)
  | none =>
    if isStr toolName "Task" then
      let d := propOf inp "description"
      let d := if isNullish d then propOf inp "subagent_type" else d
      let d := if isNullish d then JVal.str "subagent" else d
      .ok ("Task: " ++ jsToString d)
    else
      match shortToolName toolName with
      | .ok short => .ok (short ++ ": ")
      | .error e => .error e

/-- One observable event in the timeline of a run (`ActivityEntry`).  The summary
and detail flow through untyped message payloads and so stay `JVal`. -/
structure ActivityEntry where
  timestamp : Nat
  type : String
  summary : JVal
  detail : Option JVal := none
  isSubagent : Option Bool := none

/-- The structured payload of a `result`/`success` message. -/
structure SuccessResult where
  result : JVal
  costUsd : JVal
  durationMs : JVal
  numTurns : JVal

/-- The return shape of `processAgentMessage`. -/
structure AgentMessageResult where
  activities : List ActivityEntry
  sessionId : Option JVal := none
  successResult : Option SuccessResult := none
  errorMessage : Option JVal := none

/-- Models `Math.round(usage.duration_ms / 1000)` rendered into a template literal.
Numbers are modelled as integers (round-half-up matches `Math.round` for the
non-negative durations the SDK reports); a non-numeric value renders as
`NaN` as the JS float arithmetic would. -/
def roundedSeconds : JVal → String
  | .num n => toString ((n + 500) / 1000)
  | _ => "NaN"

/-- The content-block loop of the `assistant` branch of
`processAgentMessage`.  A nullish block makes `block.type` throw; the `in`
guards are only reached when the type tag matched, exactly as JS
short-circuiting evaluates them. -/
def processBlocks (cwd : Option String) (now : Nat) (isSub : Bool) :
    List JVal → Except JsErr (List ActivityEntry)
  | [] => .ok []
  | block :: rest => do
    let btype ← getProp block "type"
    let isToolUse ← if isStr btype "tool_use" then jsIn "name" block else .ok false
    if isToolUse then do
      let s ← summarizeToolUse (propOf block "name") (propOf block "input") cwd
      let acts ← processBlocks cwd now isSub rest
      .ok (⟨now, "tool_use", .str s, none, if isSub then some true else none⟩ :: acts)
    else do
      let isText ← if isStr btype "text" then jsIn "text" block else .ok false
      if isText then do
        let sliced ← jsSlice0 (propOf block "text") 200
        let acts ← processBlocks cwd now isSub rest
        .ok (⟨now, "text", sliced, some (propOf block "text"), if isSub then some true else none⟩ :: acts)
      else
        processBlocks cwd now isSub rest

/-- Embeds `processAgentMessage(message, cwd?)` from `activity.ts`.  `now` stands for
`Date.now()`.  The first property read `msg.type` is the only top-level access
that can throw (it does so for `null`/`undefined` input); every later read is
on the same, by then known non-nullish, receiver. -/
def processAgentMessage (message : JVal) (cwd : Option String) (now : Nat) :
    Except JsErr AgentMessageResult :=
  match getProp message "type" with
  | .error e => .error e
  | .ok msgType =>
    if isStr msgType "system" && isStr (propOf message "subtype") "init" then
      .ok { activities := [⟨now, "status", .str "Agent started", none, none⟩],
            sessionId := some (propOf message "session_id") }
    else if isStr msgType "system" && isStr (propOf message "subtype") "task_started" then
      let d := propOf message "description"
      let t := propOf message "task_type"
      let label := if truthy d then d else if truthy t then t else .str "subagent"
      .ok { activities := [⟨now, "status", .str ("Spawned: " ++ jsToString label), none, some true⟩] }
    else if isStr msgType "system" && isStr (propOf message "subtype") "task_notification" then
      let usage := propOf message "usage"
      let durationStr :=
        if truthy usage then
          roundedSeconds (propOf usage "duration_ms") ++ "s, "
            ++ jsToString (propOf usage "tool_uses") ++ " tools"
        else ""
      let suffix := if durationStr == "" then "" else " (" ++ durationStr ++ ")"
      let detail :=
        if truthy (propOf message "summary") then some (propOf message "summary") else none
      if isStr (propOf message "status") "completed" then
        .ok { activities := [⟨now, "result", .str ("Subagent completed" ++ suffix), detail, some true⟩] }
      else
        .ok { activities :=
                [⟨now, "error", .str ("Subagent " ++ jsToString (propOf message "status") ++ suffix),
                  detail, some true⟩] }
    else if isStr msgType "assistant" && truthy (propOf message "message") then
      let inner := propOf message "message"
      let isSub := !(isNullish (propOf message "parent_tool_use_id"))
      match propOf inner "content" with
      | .arr blocks =>
        (match processBlocks cwd now isSub blocks with
         | .ok acts => .ok { activities := acts }
         | .error e => .error e)
      | _ => .ok { activities := [] }
    else if isStr msgType "result" then
      if isStr (propOf message "subtype") "success" then
        .ok { activities := [⟨now, "result", .str "Agent completed successfully", none, none⟩],
              successResult := some
                { result := propOf message "result",
                  costUsd := propOf message "total_cost_usd",
                  durationMs := propOf message "duration_ms",
                  numTurns := propOf message "num_turns" } }
      else
        let errors := propOf message "errors"
        let lenV := if isNullish errors then JVal.undefined else propOf errors "length"
        match (if truthy lenV then jsJoinMethod errors "; " else .ok (propOf message "subtype")) with
        | .error e => .error e
        | .ok errVal =>
          match jsSlice0 errVal 200 with
          | .error e => .error e
          | .ok sliced =>
            .ok { activities :=
                    [⟨now, "error", .str ("Agent error: " ++ jsToString sliced), none, none⟩],
                  errorMessage := some errVal }
    else
      .ok { activities := [] }

/-- Embeds `makeErrorActivity(summary)` from `activity.ts`. -/
def makeErrorActivity (now : Nat) (summary : String) : ActivityEntry :=
  ⟨now, "error", .str summary, none, none⟩

/-! ## `src/lib/prompt.ts` -/

/-- The whitespace class of the JS regexes used by `sanitizePromptValue`
(ASCII part; exotic Unicode spaces are not modelled). -/
def isJsSpace (c : Char) : Bool :=
  c == ' ' || c == '\t' || c == '\n' || c == '\r' || c == '\x0b' || c == '\x0c'

/-- One fold step of `value.replace(/[\r\n]+/g, " ")`: a run of newline
characters collapses to a single space. -/
def collapseStep (acc : String × Bool) (c : Char) : String × Bool :=
  if c == '\r' || c == '\n' then
    (if acc.2 then acc.1 else acc.1.push ' ', true)
  else (acc.1.push c, false)

/-- Models `value.replace(/[\r\n]+/g, " ")`. -/
def collapseNewlines (value : String) : String :=
  (value.data.foldl collapseStep ("", false)).1

/-- Models `value.replace(/^\s*#+\s*/, "")`: strip one leading markdown heading
marker (the match requires at least one `#`). -/
def stripLeadingHeading (value : String) : String :=
  let afterSpace := value.data.dropWhile isJsSpace
  match afterSpace with
  | '#' :: _ => String.mk ((afterSpace.dropWhile (fun c => c == '#')).dropWhile isJsSpace)
  | _ => value

/-- Models `value.trim()`. -/
def trimJs (value : String) : String :=
  String.mk (((value.data.dropWhile isJsSpace).reverse.dropWhile isJsSpace).reverse)

/-- Embeds `sanitizePromptValue` from `prompt.ts`: collapse newlines, strip a
leading heading marker, trim. -/
def sanitizePromptValue (value : String) : String :=
  trimJs (stripLeadingHeading (collapseNewlines value))

/-- Embeds `renderPrompt(template, vars)` from `prompt.ts`.  `vars` is the
`Object.entries` insertion-order association list; the placeholder of each key is
replaced over the whole intermediate string in turn. -/
def renderPrompt (template : String) (vars : List (String × String)) : String :=
  vars.foldl
    (fun result kv =>
      replaceAll result ("\x7b\x7b" ++ kv.1 ++ "\x7d\x7d") (sanitizePromptValue kv.2))
    template

/-! ## `src/lib/worktree.ts` -/

/-- The optional options record of `removeWorktree`. -/
structure WtOpts where
  keepBranch : Option Bool := none

/-- The truthiness of `opts?.keepBranch`. -/
def effectiveKeepBranch (opts : Option WtOpts) : Bool :=
  match opts with
  | some o => o.keepBranch.getD false
  | none => false

/-- The git subprocess oracle: `gitSync` returns the stderr text when the
command exits non-zero and nothing on success; the oracle maps each command
line to that outcome. -/
structure GitEnv where
  run : List String → Option String

/-- The observable effects of a worktree operation: git commands issued, in
order, and the log lines emitted. -/
structure WtLog where
  commands : List (List String)
  infos : List String
  warns : List String

/-- Builds `<project-root>/.claude/worktrees/<name>`, the worktree directory layout
(`resolve` joining path segments for an absolute project path). -/
def worktreePath (projectPath name : String) : String :=
  projectPath ++ "/.claude/worktrees/" ++ name

/-- Embeds `removeWorktree(projectPath, name, opts?)` from `worktree.ts`: remove the
worktree directory (logging a warning on failure), re-prune worktree
metadata, and unless `keepBranch` is truthy delete the deterministic branch
`worktree-<name>` (again logging a warning on failure).  No failure is ever
raised: every git outcome is only recorded. -/
def removeWorktree (git : GitEnv) (projectPath name : String) (opts : Option WtOpts) : WtLog :=
  let wtPath := worktreePath projectPath name
  let removeCmd := ["worktree", "remove", wtPath, "--force"]
  let wtErr := git.run removeCmd
  let warnsAfterRemove :=
    match wtErr with
    | some e => ["Failed to remove worktree \x27" ++ name ++ "\x27: " ++ e]
    | none => []
  let pruneCmd := ["worktree", "prune"]
  let _ := git.run pruneCmd
  if effectiveKeepBranch opts then
    { commands := [removeCmd, pruneCmd],
      infos := ["Removing worktree: " ++ name],
      warns := warnsAfterRemove }
  else
    let branch := "worktree-" ++ name
    let delCmd := ["branch", "-D", branch]
    let warnsFinal :=
      match git.run delCmd with
      | some e => warnsAfterRemove ++ ["Failed to delete branch \x27" ++ branch ++ "\x27: " ++ e]
      | none => warnsAfterRemove
    { commands := [removeCmd, pruneCmd, delCmd],
      infos := ["Removing worktree: " ++ name],
      warns := warnsFinal }

/-! ## The GitHub status poller (`getPRStatus`) -/

/-- The aggregate CI verdict of a `PRStatus`. -/
inductive CIStatus where
  | success
  | failure
  | pending
deriving DecidableEq

/-- One entry of the legacy combined status (`statusResult.data.statuses`). -/
structure CommitStatus where
  context : String
  state : String
  description : Option String
deriving DecidableEq

/-- One check run of the Checks API (`conclusion` is `null` while the check
has not completed). -/
structure CheckRun where
  name : String
  status : String
  conclusion : Option String
deriving DecidableEq

/-- The legacy combined status response: the aggregate state plus the
individual statuses. -/
structure CombinedStatus where
  state : String
  statuses : List CommitStatus
deriving DecidableEq

/-- The pull-request fields `getPRStatus` reads. -/
structure PRData where
  merged : Bool
  mergeable : Option Bool
  headRef : String
deriving DecidableEq

/-- The result record of `getPRStatus`. -/
structure PRStatus where
  merged : Bool
  mergeable : Option Bool
  branch : String
  ciStatus : CIStatus
  ciDetails : String
deriving DecidableEq

/-- The network queries `getPRStatus` can issue, recorded as a trace. -/
inductive ApiQuery where
  | getPR
  | getCombinedStatus
  | listChecks
deriving DecidableEq

/-- Models `c.conclusion === "failure" || c.conclusion === "timed_out"`. -/
def checkFailing (c : CheckRun) : Bool :=
  c.conclusion == some "failure" || c.conclusion == some "timed_out"

/-- Models `c.status === "completed"`. -/
def checkCompleted (c : CheckRun) : Bool := c.status == "completed"

/-- Models `c.status === "completed" && (c.conclusion === "success" || c.conclusion === "skipped")`. -/
def checkPassing (c : CheckRun) : Bool :=
  c.status == "completed" && (c.conclusion == some "success" || c.conclusion == some "skipped")

/-- Models `status.state === "failure" || status.state === "error"`. -/
def statusEntryFailing (s : CommitStatus) : Bool :=
  s.state == "failure" || s.state == "error"

/-- The failure-detail line for a legacy status entry:
`` `${status.context}: ${status.description ?? "failed"}` ``. -/
def formatStatusEntry (s : CommitStatus) : String :=
  s.context ++ ": " ++ s.description.getD "failed"

/-- The failure-detail line for a check run:
`` `${check.name}: ${check.conclusion}` `` (pushed only for a conclusive
failure, so the conclusion is present there). -/
def formatCheck (c : CheckRun) : String :=
  c.name ++ ": " ++ (match c.conclusion with | some v => v | none => "null")

/-- The generic fallback detail line. -/
def fallbackDetail : String := "CI checks failed (see PR for details)"

/-- The CI aggregation block of the current (retry-based) `getPRStatus`
(second document of `src/unnamed/part_000`, the body between fetching the two
status sources and building the result): legacy failure state and failing
check conclusions each force `failure` immediately; `success` needs a legacy
success aggregate plus every check completed and passing; anything else stays
`pending`; an empty detail list under a failure verdict gets the generic
fallback line. -/
def aggregateCI (statusState : String) (statuses : List CommitStatus)
    (checks : List CheckRun) : CIStatus × List String :=
  let st1 : CIStatus × List String :=
    if statusState == "failure" then
      (.failure, (statuses.filter statusEntryFailing).map formatStatusEntry)
    else (.pending, [])
  let hasFailedCheck := checks.any checkFailing
  let allChecksComplete := checks.all checkCompleted
  let allChecksPass := checks.all checkPassing
  let st2 : CIStatus × List String :=
    if hasFailedCheck then
      (.failure, st1.2 ++ (checks.filter checkFailing).map formatCheck)
    else if statusState == "success" && allChecksComplete && allChecksPass then
      (.success, st1.2)
    else st1
  if st2.1 == CIStatus.failure && st2.2.isEmpty then
    (CIStatus.failure, [fallbackDetail])
  else st2

/-- The CI aggregation block of the earlier, settle-gated `getPRStatus`
(first document of `src/unnamed/part_000`, lines 117 to 166): while any legacy
entry is pending or any check incomplete the verdict is `pending`; once
everything settled, a legacy failure/error aggregate or a failing check gives
`failure` with the collected details, otherwise `success`. -/
def aggregateCISettled (statusState : String) (statuses : List CommitStatus)
    (checks : List CheckRun) : CIStatus × List String :=
  let allStatusesFinal := statuses.all (fun s => s.state != "pending")
  let allChecksComplete := checks.all checkCompleted
  let allSettled := allStatusesFinal && allChecksComplete
  let st : CIStatus × List String :=
    if !allSettled then (.pending, [])
    else
      let hasStatusFailure := statusState == "failure" || statusState == "error"
      let hasCheckFailure := checks.any checkFailing
      if hasStatusFailure || hasCheckFailure then
        (.failure,
          (statuses.filter statusEntryFailing).map formatStatusEntry
            ++ (checks.filter checkFailing).map formatCheck)
      else (.success, [])
  if st.1 == CIStatus.failure && st.2.isEmpty then
    (CIStatus.failure, [fallbackDetail])
  else st

/-- Embeds `getPRStatus(owner, repo, prNumber)` of the current (retry-based) module,
with the network made explicit: the fetched PR, combined status and check
list are arguments, and the queries actually issued are returned as a trace.
A merged PR short-circuits after the single PR fetch. -/
def getPRStatus (pr : PRData) (statusResult : CombinedStatus)
    (checkRuns : List CheckRun) : PRStatus × List ApiQuery :=
  if pr.merged then
    ({ merged := true, mergeable := none, branch := pr.headRef,
       ciStatus := .success, ciDetails := "" }, [.getPR])
  else
    let agg := aggregateCI statusResult.state statusResult.statuses checkRuns
    ({ merged := false, mergeable := pr.mergeable, branch := pr.headRef,
       ciStatus := agg.1, ciDetails := joinWith "\n" agg.2 },
     [.getPR, .getCombinedStatus, .listChecks])

/-- Embeds `getPRStatus` of the earlier, settle-gated module (first document of
`src/unnamed/part_000`), same explicit-network shape. -/
def getPRStatusSettled (pr : PRData) (statusResult : CombinedStatus)
    (checkRuns : List CheckRun) : PRStatus × List ApiQuery :=
  if pr.merged then
    ({ merged := true, mergeable := none, branch := pr.headRef,
       ciStatus := .success, ciDetails := "" }, [.getPR])
  else
    let agg := aggregateCISettled statusResult.state statusResult.statuses checkRuns
    ({ merged := false, mergeable := pr.mergeable, branch := pr.headRef,
       ciStatus := agg.1, ciDetails := joinWith "\n" agg.2 },
     [.getPR, .getCombinedStatus, .listChecks])

/-! ## Claim-side definitions (stated from the words of the claims, for comparison
against the embedded source) -/

/-- Stated from the words of claim C4: the summary value with the working-directory
prefix stripped exactly once and nothing else. -/
def strippedOnceClaim (value c : String) : String :=
  if jsStartsWith value c then stringDrop value c.length else value

/-- The amended C4 strip: a non-empty `cwd` that prefixes the value is removed
once together with at most one immediately following `/`; otherwise the value
is untouched. -/
def amendedStrip (value : String) (cwd : Option String) : String :=
  match cwd with
  | some c =>
    if c != "" && jsStartsWith value c then dropLeadingSlashOnce (stringDrop value c.length)
    else value
  | none => value

/-- The raw summary value of a tool-use input, as claim C4 speaks of it: the
string conversion of the value of the table field (empty for a nullish or missing
field, or a non-object input). -/
def rawSummaryValue (input : JVal) (field : String) : String :=
  let raw := propOf (objOrEmpty input) field
  jsToString (if isNullish raw then .str "" else raw)

/-- Stated from the words of claim C3: the recognized message shapes
(`system/init`, `system/task_started`, `system/task_notification`,
assistant-with-message, `result`). -/
def recognizedShape (m : JVal) : Prop :=
  (propOf m "type" = .str "system" ∧
    (propOf m "subtype" = .str "init" ∨ propOf m "subtype" = .str "task_started" ∨
      propOf m "subtype" = .str "task_notification"))
  ∨ (propOf m "type" = .str "assistant" ∧ truthy (propOf m "message") = true)
  ∨ propOf m "type" = .str "result"

/-- Stated from the words of claim C8: the error message prefers the joined list of
structured error messages when that list is non-empty and falls back to the
error subtype of the result. -/
def errMessageOf (errors : JVal) (sub : String) : String :=
  match errors with
  | .arr (x :: xs) => jsJoinArr "; " (x :: xs)
  | _ => sub

/-- Stated from the words of claim C7: one `<name>: <reason>` line per
failing/timed-out entry from either source, with the generic fallback line
when no specific entry was captured. -/
def claimedFailureDetails (statuses : List CommitStatus) (checks : List CheckRun) :
    List String :=
  if ((statuses.filter statusEntryFailing).map formatStatusEntry
      ++ (checks.filter checkFailing).map formatCheck).isEmpty then [fallbackDetail]
  else (statuses.filter statusEntryFailing).map formatStatusEntry
    ++ (checks.filter checkFailing).map formatCheck

/-! ## Helper lemmas -/

theorem eq_empty_of_data_eq_nil (s : String) (h : s.data = []) : s = "" := by
  cases s with
  | mk d => cases h; rfl

theorem length_pos_of_ne_empty (s : String) (h : s ≠ "") : 0 < s.length := by
  cases s with
  | mk d =>
    cases d with
    | nil => exact absurd (eq_empty_of_data_eq_nil _ rfl) h
    | cons c cs => simp [String.length]

theorem ne_empty_of_length_pos (s : String) (h : 0 < s.length) : s ≠ "" :=
  fun he => absurd (he ▸ h) (by decide)

theorem joinWith_ne_empty (sep : String) (l : List String) (hl : l ≠ [])
    (hall : ∀ x ∈ l, x ≠ "") : joinWith sep l ≠ "" := by
  match l with
  | [] => exact absurd rfl hl
  | [x] => exact hall x (by simp)
  | x :: y :: rest =>
    apply ne_empty_of_length_pos
    have hx : 0 < x.length := length_pos_of_ne_empty x (hall x (by simp))
    simp only [joinWith, String.length_append]
    omega

theorem isStr_eq_true (v : JVal) (s : String) : isStr v s = true ↔ v = JVal.str s := by
  cases v <;> simp [isStr]

theorem getProp_ok (m : JVal) (k : String) (h1 : m ≠ JVal.null) (h2 : m ≠ JVal.undefined) :
    getProp m k = .ok (propOf m k) := by
  cases m
  · exact absurd rfl h1
  · exact absurd rfl h2
  all_goals rfl

theorem strTake_length_le (s : String) (n : Nat) : (strTake s n).length ≤ n := by
  have : (strTake s n).length = (s.data.take n).length := rfl
  rw [this, List.length_take]
  exact Nat.min_le_left n s.data.length

theorem formatStatusEntry_ne_empty (e : CommitStatus) : formatStatusEntry e ≠ "" := by
  apply ne_empty_of_length_pos
  simp only [formatStatusEntry, String.length_append]
  have : (": " : String).length = 2 := rfl
  omega

theorem formatCheck_ne_empty (c : CheckRun) : formatCheck c ≠ "" := by
  apply ne_empty_of_length_pos
  simp only [formatCheck, String.length_append]
  have : (": " : String).length = 2 := rfl
  omega

theorem claimedFailureDetails_ne_nil (sts : List CommitStatus) (cks : List CheckRun) :
    claimedFailureDetails sts cks ≠ [] := by
  unfold claimedFailureDetails
  split
  · simp
  · next h => exact fun hn => h (by simp [hn])

theorem claimedFailureDetails_all_ne_empty (sts : List CommitStatus) (cks : List CheckRun) :
    ∀ x ∈ claimedFailureDetails sts cks, x ≠ "" := by
  intro x hx
  unfold claimedFailureDetails at hx
  split at hx
  · simp at hx
    subst hx
    decide
  · rcases List.mem_append.mp hx with hx | hx <;> rcases List.mem_map.mp hx with ⟨e, _, rfl⟩
    · exact formatStatusEntry_ne_empty e
    · exact formatCheck_ne_empty e

theorem aggregateCI_fst (st : String) (sts : List CommitStatus) (cks : List CheckRun) :
    (aggregateCI st sts cks).1 =
      if st == "failure" || cks.any checkFailing then CIStatus.failure
      else if st == "success" && cks.all checkCompleted && cks.all checkPassing then
        CIStatus.success
      else CIStatus.pending := by
  have hfst : ∀ (b : Bool) (y : CIStatus × List String),
      (if y.1 == CIStatus.failure && b then (CIStatus.failure, [fallbackDetail]) else y).1 = y.1 := by
    intro b y
    split
    · next h =>
      have hy : y.1 = CIStatus.failure := by
        simpa using ((Bool.and_eq_true _ _).mp h).1
      simp [hy]
    · rfl
  unfold aggregateCI
  simp only [hfst]
  cases h1 : (st == "failure") <;> cases h2 : cks.any checkFailing <;>
    cases h3 : (st == "success" && cks.all checkCompleted && cks.all checkPassing) <;>
      simp_all

theorem aggregateCI_failure_iff (st : String) (sts : List CommitStatus) (cks : List CheckRun) :
    (aggregateCI st sts cks).1 = CIStatus.failure ↔
      (st = "failure" ∨
        ∃ c ∈ cks, c.conclusion = some "failure" ∨ c.conclusion = some "timed_out") := by
  rw [aggregateCI_fst]
  have hb : (st == "failure" || cks.any checkFailing) = true ↔
      (st = "failure" ∨
        ∃ c ∈ cks, c.conclusion = some "failure" ∨ c.conclusion = some "timed_out") := by
    simp [List.any_eq_true, checkFailing]
  split
  · next h => exact iff_of_true rfl (hb.mp h)
  · next h =>
    split
    · exact iff_of_false (by decide) (fun hp => h (hb.mpr hp))
    · exact iff_of_false (by decide) (fun hp => h (hb.mpr hp))

theorem aggregateCI_success_iff (st : String) (sts : List CommitStatus) (cks : List CheckRun) :
    (aggregateCI st sts cks).1 = CIStatus.success ↔
      (st = "success" ∧ (∀ c ∈ cks, c.status = "completed") ∧
        ∀ c ∈ cks, c.status = "completed" →
          (c.conclusion = some "success" ∨ c.conclusion = some "skipped")) := by
  rw [aggregateCI_fst]
  have hb2 : (st == "success" && cks.all checkCompleted && cks.all checkPassing) = true ↔
      (st = "success" ∧ (∀ c ∈ cks, c.status = "completed") ∧
        ∀ c ∈ cks, c.status = "completed" →
          (c.conclusion = some "success" ∨ c.conclusion = some "skipped")) := by
    simp only [Bool.and_eq_true, List.all_eq_true, checkCompleted, checkPassing,
      beq_iff_eq, Bool.or_eq_true]
    constructor
    · rintro ⟨⟨hs, hc⟩, hp⟩
      exact ⟨hs, hc, fun c hm _ => (hp c hm).2⟩
    · rintro ⟨hs, hc, hp⟩
      exact ⟨⟨hs, hc⟩, fun c hm => ⟨hc c hm, hp c hm (hc c hm)⟩⟩
  split
  · next h =>
    refine iff_of_false (by decide) (fun hp => ?_)
    rcases Bool.or_eq_true _ _ |>.mp h with hf | hany
    · have : st = "failure" := by simpa using hf
      rw [this] at hp
      exact absurd hp.1 (by decide)
    · rcases List.any_eq_true.mp hany with ⟨c, hcm, hcf⟩
      have hcomp := hp.2.1 c hcm
      have hconc := hp.2.2 c hcm hcomp
      rcases (by simpa [checkFailing] using hcf :
          c.conclusion = some "failure" ∨ c.conclusion = some "timed_out") with h' | h' <;>
        rcases hconc with h'' | h'' <;> simp_all
  · next h =>
    split
    · next h2 => exact iff_of_true rfl (hb2.mp h2)
    · next h2 => exact iff_of_false (by decide) (fun hp => h2 (hb2.mpr hp))

theorem aggregateCI_pending_iff (st : String) (sts : List CommitStatus) (cks : List CheckRun) :
    (aggregateCI st sts cks).1 = CIStatus.pending ↔
      (¬(st = "failure" ∨
          ∃ c ∈ cks, c.conclusion = some "failure" ∨ c.conclusion = some "timed_out") ∧
        ¬(st = "success" ∧ (∀ c ∈ cks, c.status = "completed") ∧
          ∀ c ∈ cks, c.status = "completed" →
            (c.conclusion = some "success" ∨ c.conclusion = some "skipped"))) := by
  have hf := aggregateCI_failure_iff st sts cks
  have hs := aggregateCI_success_iff st sts cks
  constructor
  · intro hp
    constructor
    · intro hcl
      have := hf.mpr hcl
      rw [hp] at this
      exact absurd this (by decide)
    · intro hcl
      have := hs.mpr hcl
      rw [hp] at this
      exact absurd this (by decide)
  · rintro ⟨hnf, hns⟩
    rcases hcase : (aggregateCI st sts cks).1 with _ | _ | _
    · exact absurd (hs.mp hcase) hns
    · exact absurd (hf.mp hcase) hnf
    · rfl

theorem getPRStatus_unmerged_ciStatus (pr : PRData) (s : CombinedStatus)
    (cks : List CheckRun) (hm : pr.merged = false) :
    (getPRStatus pr s cks).1.ciStatus = (aggregateCI s.state s.statuses cks).1 := by
  simp [getPRStatus, hm]

theorem getPRStatus_unmerged_ciDetails (pr : PRData) (s : CombinedStatus)
    (cks : List CheckRun) (hm : pr.merged = false) :
    (getPRStatus pr s cks).1.ciDetails = joinWith "\n" (aggregateCI s.state s.statuses cks).2 := by
  simp [getPRStatus, hm]

/-! ## Claim theorems -/

/-- C1: for every PR-status query on an unmerged change, the current
`getPRStatus` classifies CI by the settle rule: `failure` exactly when the
legacy aggregate reports failure or some check concluded failure/timed-out;
`success` exactly when the legacy aggregate is success, every check is
completed, and every completed check concluded success or skipped; `pending`
in every other case. -/
theorem claim_C1 (pr : PRData) (s : CombinedStatus) (cks : List CheckRun)
    (hm : pr.merged = false) :
    ((getPRStatus pr s cks).1.ciStatus = CIStatus.failure ↔
      (s.state = "failure" ∨
        ∃ c ∈ cks, c.conclusion = some "failure" ∨ c.conclusion = some "timed_out"))
    ∧ ((getPRStatus pr s cks).1.ciStatus = CIStatus.success ↔
      (s.state = "success" ∧ (∀ c ∈ cks, c.status = "completed") ∧
        ∀ c ∈ cks, c.status = "completed" →
          (c.conclusion = some "success" ∨ c.conclusion = some "skipped")))
    ∧ ((getPRStatus pr s cks).1.ciStatus = CIStatus.pending ↔
      (¬(s.state = "failure" ∨
          ∃ c ∈ cks, c.conclusion = some "failure" ∨ c.conclusion = some "timed_out") ∧
        ¬(s.state = "success" ∧ (∀ c ∈ cks, c.status = "completed") ∧
          ∀ c ∈ cks, c.status = "completed" →
            (c.conclusion = some "success" ∨ c.conclusion = some "skipped")))) := by
  rw [getPRStatus_unmerged_ciStatus pr s cks hm]
  exact ⟨aggregateCI_failure_iff _ _ _, aggregateCI_success_iff _ _ _,
    aggregateCI_pending_iff _ _ _⟩

/-- C1 witness: a pending legacy aggregate with one completed/`failure` check
settles to `failure` (the fast-fail example of the spec). -/
theorem claim_C1_witness :
    (getPRStatus ⟨false, some true, "feat"⟩ ⟨"pending", []⟩
      [⟨"fast", "completed", some "failure"⟩]).1.ciStatus = CIStatus.failure :=
  (claim_C1 ⟨false, some true, "feat"⟩ ⟨"pending", []⟩
    [⟨"fast", "completed", some "failure"⟩] rfl).1.mpr (by decide)

/-- C2 counterexample: the current `getPRStatus` reports `failure` on an
unmerged PR although a legacy status entry is still pending and a check run
has not completed — the fast-fail path contradicts the claimed settle
invariant. -/
theorem claim_C2_counterexample :
    ((getPRStatus ⟨false, some true, "feat"⟩
        ⟨"pending", [⟨"lint", "pending", none⟩]⟩
        [⟨"fast", "completed", some "failure"⟩, ⟨"slow", "in_progress", none⟩]).1.ciStatus
      = CIStatus.failure)
    ∧ ¬(∀ c ∈ ([⟨"fast", "completed", some "failure"⟩,
          ⟨"slow", "in_progress", none⟩] : List CheckRun), c.status = "completed")
    ∧ ¬(∀ e ∈ ([⟨"lint", "pending", none⟩] : List CommitStatus), e.state ≠ "pending") := by
  decide

/-- C2 amended: the settle-gated variant of `getPRStatus` (the first document
of `part_000`) satisfies the invariant — while any legacy status entry is
still pending or any check run has not completed, its verdict is never
`failure`.  The current retry-based variant deliberately fast-fails instead. -/
theorem claim_C2 (pr : PRData) (s : CombinedStatus) (cks : List CheckRun)
    (hm : pr.merged = false)
    (h : (∃ e ∈ s.statuses, e.state = "pending") ∨ (∃ c ∈ cks, c.status ≠ "completed")) :
    (getPRStatusSettled pr s cks).1.ciStatus ≠ CIStatus.failure := by
  have hfst : (getPRStatusSettled pr s cks).1.ciStatus
      = (aggregateCISettled s.state s.statuses cks).1 := by
    simp [getPRStatusSettled, hm]
  rw [hfst]
  have hsettled : (s.statuses.all (fun e => e.state != "pending") && cks.all checkCompleted)
      = false := by
    rcases h with ⟨e, he, hp⟩ | ⟨c, hc, hnc⟩
    · have hall : s.statuses.all (fun e => e.state != "pending") = false := by
        rw [Bool.eq_false_iff]
        intro hall
        have := List.all_eq_true.mp hall e he
        simp [hp] at this
      simp [hall]
    · have hall : cks.all checkCompleted = false := by
        rw [Bool.eq_false_iff]
        intro hall
        have := List.all_eq_true.mp hall c hc
        simp [checkCompleted] at this
        exact hnc this
      simp [hall]
  unfold aggregateCISettled
  simp [hsettled]

/-- C2 witness for the amended claim: an in-progress check keeps the
settle-gated verdict away from `failure` even under a pending aggregate. -/
theorem claim_C2_witness :
    (getPRStatusSettled ⟨false, none, "b"⟩ ⟨"pending", []⟩
      [⟨"slow", "in_progress", none⟩]).1.ciStatus ≠ CIStatus.failure :=
  claim_C2 ⟨false, none, "b"⟩ ⟨"pending", []⟩ [⟨"slow", "in_progress", none⟩] rfl
    (Or.inr (by decide))

/-- C5: `removeWorktree` is best-effort and deterministic in its command
trace whatever the git outcomes are: it always attempts the forced worktree
removal, then re-prunes, and issues the `worktree-<name>` branch deletion
exactly when `keepBranch` is not set; no git failure changes the trace (it is
the same as under an always-succeeding oracle) and failures only append
warnings. -/
theorem claim_C5 (git : GitEnv) (projectPath name : String) (opts : Option WtOpts) :
    (removeWorktree git projectPath name opts).commands =
      [["worktree", "remove", worktreePath projectPath name, "--force"], ["worktree", "prune"]]
        ++ (if effectiveKeepBranch opts then [] else [["branch", "-D", "worktree-" ++ name]])
    ∧ ((["branch", "-D", "worktree-" ++ name] ∈ (removeWorktree git projectPath name opts).commands)
        ↔ effectiveKeepBranch opts = false)
    ∧ (removeWorktree git projectPath name opts).commands
        = (removeWorktree ⟨fun _ => none⟩ projectPath name opts).commands := by
  have hbr : ("branch" : String) ≠ "worktree" := by decide
  by_cases h : effectiveKeepBranch opts <;>
    simp [removeWorktree, h, hbr]

/-- C6: a merged PR short-circuits `getPRStatus` to
`merged = true, ciStatus = success` with empty details, after the single PR
fetch and with neither CI query issued. -/
theorem claim_C6 (pr : PRData) (s : CombinedStatus) (cks : List CheckRun)
    (hm : pr.merged = true) :
    getPRStatus pr s cks =
      ({ merged := true, mergeable := none, branch := pr.headRef,
         ciStatus := CIStatus.success, ciDetails := "" }, [ApiQuery.getPR])
    ∧ ApiQuery.getCombinedStatus ∉ (getPRStatus pr s cks).2
    ∧ ApiQuery.listChecks ∉ (getPRStatus pr s cks).2 := by
  simp [getPRStatus, hm]

/-- C6 witness at a concrete merged PR. -/
theorem claim_C6_witness :
    getPRStatus ⟨true, none, "main"⟩ ⟨"pending", []⟩ [] =
      ({ merged := true, mergeable := none, branch := "main",
         ciStatus := CIStatus.success, ciDetails := "" }, [ApiQuery.getPR])
    ∧ ApiQuery.getCombinedStatus ∉ (getPRStatus ⟨true, none, "main"⟩ ⟨"pending", []⟩ []).2
    ∧ ApiQuery.listChecks ∉ (getPRStatus ⟨true, none, "main"⟩ ⟨"pending", []⟩ []).2 :=
  claim_C6 ⟨true, none, "main"⟩ ⟨"pending", []⟩ [] rfl

theorem isEmpty_false_of_ne_nil {α : Type} (l : List α) (h : l ≠ []) : l.isEmpty = false := by
  cases l
  · exact absurd rfl h
  · rfl

theorem filter_ne_nil_of_any {α : Type} (p : α → Bool) (l : List α) (h : l.any p = true) :
    l.filter p ≠ [] := by
  rcases List.any_eq_true.mp h with ⟨x, hx, hp⟩
  exact List.ne_nil_of_mem (List.mem_filter.mpr ⟨hx, hp⟩)

theorem aggregateCI_details (st : String) (sts : List CommitStatus) (cks : List CheckRun)
    (hapi : ∀ e ∈ sts, (e.state = "failure" ∨ e.state = "error") → st = "failure")
    (hf : (aggregateCI st sts cks).1 = CIStatus.failure) :
    (aggregateCI st sts cks).2 = claimedFailureDetails sts cks := by
  by_cases h1 : (st == "failure") = true
  · by_cases h2 : (cks.any checkFailing) = true
    · have hcf : cks.filter checkFailing ≠ [] := filter_ne_nil_of_any _ _ h2
      have hne : ((sts.filter statusEntryFailing).map formatStatusEntry
          ++ (cks.filter checkFailing).map formatCheck) ≠ [] := by
        intro hnil
        rcases List.append_eq_nil.mp hnil with ⟨_, hr⟩
        exact hcf (List.map_eq_nil_iff.mp hr)
      unfold aggregateCI claimedFailureDetails
      simp [h1, h2, isEmpty_false_of_ne_nil _ hne]
    · have h2f : cks.any checkFailing = false := Bool.eq_false_iff.mpr h2
      have hcf0 : cks.filter checkFailing = [] := by
        rw [List.filter_eq_nil_iff]
        intro c hc
        have := List.any_eq_false.mp h2f c hc
        simpa using this
      have hst : st = "failure" := by simpa using h1
      subst hst
      unfold aggregateCI claimedFailureDetails
      simp [h2f, hcf0]
      split <;> rfl
  · have hst : st ≠ "failure" := fun he => h1 (by rw [he]; decide)
    have hs0 : sts.filter statusEntryFailing = [] := by
      rw [List.filter_eq_nil_iff]
      intro e he hfe
      have : e.state = "failure" ∨ e.state = "error" := by
        simpa [statusEntryFailing] using hfe
      exact hst (hapi e he this)
    by_cases h2 : (cks.any checkFailing) = true
    · have hcf : cks.filter checkFailing ≠ [] := filter_ne_nil_of_any _ _ h2
      have hne : ((sts.filter statusEntryFailing).map formatStatusEntry
          ++ (cks.filter checkFailing).map formatCheck) ≠ [] := by
        intro hnil
        rcases List.append_eq_nil.mp hnil with ⟨_, hr⟩
        exact hcf (List.map_eq_nil_iff.mp hr)
      have h1f : (st == "failure") = false := Bool.eq_false_iff.mpr h1
      unfold aggregateCI claimedFailureDetails
      simp [h1f, h2, hs0, isEmpty_false_of_ne_nil _ hne]
      split <;> rfl
    · exfalso
      have h1f : (st == "failure") = false := Bool.eq_false_iff.mpr h1
      have h2f : cks.any checkFailing = false := Bool.eq_false_iff.mpr h2
      rw [aggregateCI_fst] at hf
      rcases h3 : (st == "success" && cks.all checkCompleted && cks.all checkPassing) <;>
        simp [h1f, h2f, h3] at hf

/-- C7: whenever the current `getPRStatus` reports `failure` on an unmerged
PR (with legacy aggregation reflecting its entries, as the combined-status
API guarantees), the detail field is the newline join of one
`<name>: <reason>` line per failing/timed-out entry from either source, with
the generic fallback line when no specific entry was captured — in
particular it is never empty. -/
theorem claim_C7 (pr : PRData) (s : CombinedStatus) (cks : List CheckRun)
    (hm : pr.merged = false)
    (hapi : ∀ e ∈ s.statuses, (e.state = "failure" ∨ e.state = "error") → s.state = "failure")
    (hf : (getPRStatus pr s cks).1.ciStatus = CIStatus.failure) :
    (getPRStatus pr s cks).1.ciDetails = joinWith "\n" (claimedFailureDetails s.statuses cks)
    ∧ claimedFailureDetails s.statuses cks ≠ []
    ∧ (getPRStatus pr s cks).1.ciDetails ≠ "" := by
  have hst := getPRStatus_unmerged_ciStatus pr s cks hm
  have hdt := getPRStatus_unmerged_ciDetails pr s cks hm
  have hd := aggregateCI_details s.state s.statuses cks hapi (hst ▸ hf)
  refine ⟨by rw [hdt, hd], claimedFailureDetails_ne_nil _ _, ?_⟩
  rw [hdt, hd]
  exact joinWith_ne_empty _ _ (claimedFailureDetails_ne_nil _ _)
    (claimedFailureDetails_all_ne_empty _ _)

/-- C7 witness: a failing legacy aggregate with one failing entry yields that
entry as the (non-empty) detail line. -/
theorem claim_C7_witness :
    (getPRStatus ⟨false, some true, "b"⟩ ⟨"failure", [⟨"ci", "failure", some "boom"⟩]⟩ []).1.ciDetails
      = joinWith "\n" (claimedFailureDetails [⟨"ci", "failure", some "boom"⟩] [])
    ∧ claimedFailureDetails [⟨"ci", "failure", some "boom"⟩] ([] : List CheckRun) ≠ []
    ∧ (getPRStatus ⟨false, some true, "b"⟩ ⟨"failure", [⟨"ci", "failure", some "boom"⟩]⟩ []).1.ciDetails ≠ "" :=
  claim_C7 ⟨false, some true, "b"⟩ ⟨"failure", [⟨"ci", "failure", some "boom"⟩]⟩ [] rfl
    (by decide) (by decide)

/-- C3 counterexample: `processAgentMessage` is not total — on `null` input
the very first property read `msg.type` raises a `TypeError`, so no empty
activity list is returned. -/
theorem claim_C3_counterexample :
    processAgentMessage JVal.null none 0 =
      Except.error (JsErr.typeError "Cannot read properties of null (reading type)") := rfl

/-- C3 amended: on every input other than `null`/`undefined` whose
type/subtype tag matches none of the recognized shapes, `processAgentMessage`
returns (without raising) an empty activity list and no session, success or
error field; on `null`/`undefined` input it raises a `TypeError`. -/
theorem claim_C3 (m : JVal) (cwd : Option String) (now : Nat)
    (h1 : m ≠ JVal.null) (h2 : m ≠ JVal.undefined) (h3 : ¬ recognizedShape m) :
    processAgentMessage m cwd now = .ok { activities := [] } := by
  have hg := getProp_ok m "type" h1 h2
  have g1 : (isStr (propOf m "type") "system" && isStr (propOf m "subtype") "init") = false := by
    rw [Bool.eq_false_iff]
    intro hb
    rw [Bool.and_eq_true, isStr_eq_true, isStr_eq_true] at hb
    exact h3 (Or.inl ⟨hb.1, Or.inl hb.2⟩)
  have g2 : (isStr (propOf m "type") "system" && isStr (propOf m "subtype") "task_started") = false := by
    rw [Bool.eq_false_iff]
    intro hb
    rw [Bool.and_eq_true, isStr_eq_true, isStr_eq_true] at hb
    exact h3 (Or.inl ⟨hb.1, Or.inr (Or.inl hb.2)⟩)
  have g3 : (isStr (propOf m "type") "system" && isStr (propOf m "subtype") "task_notification") = false := by
    rw [Bool.eq_false_iff]
    intro hb
    rw [Bool.and_eq_true, isStr_eq_true, isStr_eq_true] at hb
    exact h3 (Or.inl ⟨hb.1, Or.inr (Or.inr hb.2)⟩)
  have g4 : (isStr (propOf m "type") "assistant" && truthy (propOf m "message")) = false := by
    rw [Bool.eq_false_iff]
    intro hb
    rw [Bool.and_eq_true, isStr_eq_true] at hb
    exact h3 (Or.inr (Or.inl ⟨hb.1, hb.2⟩))
  have g5 : isStr (propOf m "type") "result" = false := by
    rw [Bool.eq_false_iff]
    intro hb
    rw [isStr_eq_true] at hb
    exact h3 (Or.inr (Or.inr hb))
  unfold processAgentMessage
  rw [hg]
  simp only [g1, g2, g3, g4, g5, Bool.false_eq_true, if_false]

/-- C3 witness for the amended claim: a primitive message (non-nullish,
no tag at all) is silently absorbed. -/
theorem claim_C3_witness :
    processAgentMessage (JVal.num 5) none 0 = .ok { activities := [] } :=
  claim_C3 (JVal.num 5) none 0 (fun h => JVal.noConfusion h) (fun h => JVal.noConfusion h)
    (fun h => by
      have e : propOf (JVal.num 5) "type" = JVal.undefined := rfl
      rcases h with ⟨h1, _⟩ | ⟨h1, _⟩ | h1 <;> rw [e] at h1 <;> exact JVal.noConfusion h1)

/-- C8: a `result` message with a non-`success` subtype yields exactly one
`error` activity whose summary is `Agent error: ` plus the first 200
characters of the error message, and an `errorMessage` equal to the
`"; "`-join of the structured error list when it is non-empty, and to the
error subtype otherwise. -/
theorem claim_C8 (m : JVal) (cwd : Option String) (now : Nat) (sub : String)
    (ht : propOf m "type" = .str "result")
    (hs : propOf m "subtype" = .str sub)
    (hns : sub ≠ "success")
    (herr : propOf m "errors" = .undefined ∨ propOf m "errors" = .null ∨
      ∃ l, propOf m "errors" = .arr l) :
    processAgentMessage m cwd now = .ok
      { activities := [⟨now, "error",
          .str ("Agent error: " ++ strTake (errMessageOf (propOf m "errors") sub) 200),
          none, none⟩],
        errorMessage := some (.str (errMessageOf (propOf m "errors") sub)) }
    ∧ (strTake (errMessageOf (propOf m "errors") sub) 200).length ≤ 200 := by
  have h1 : m ≠ JVal.null := by
    intro he
    rw [he] at ht
    exact JVal.noConfusion ht
  have h2 : m ≠ JVal.undefined := by
    intro he
    rw [he] at ht
    exact JVal.noConfusion ht
  have hg := getProp_ok m "type" h1 h2
  refine ⟨?_, strTake_length_le _ _⟩
  unfold processAgentMessage
  rw [hg, ht, hs]
  have hb1 : ∀ t : String, isStr (JVal.str "result") t = ("result" == t) := fun _ => rfl
  have hsub : isStr (JVal.str sub) "success" = false := by
    simp [isStr, hns]
  rcases herr with he | he | ⟨l, he⟩
  · rw [he]
    simp [isStr, hsub, isNullish, truthy, jsSlice0, jsToString, errMessageOf, hns]
  · rw [he]
    simp [isStr, hsub, isNullish, truthy, jsSlice0, jsToString, errMessageOf, hns]
  · rw [he]
    cases l with
    | nil =>
      simp [isStr, hsub, isNullish, truthy, propOf, jsSlice0, jsToString, errMessageOf, hns]
    | cons x xs =>
      have hz : ¬((xs.length : Int) + 1 = 0) := by omega
      simp [isStr, hsub, isNullish, truthy, propOf, jsSlice0, jsToString, errMessageOf,
        jsJoinMethod, hns, hz]

/-- C8 witness: a structured-error-free `result` error falls back to the
subtype. -/
theorem claim_C8_witness :
    processAgentMessage (JVal.obj [("type", JVal.str "result"), ("subtype", JVal.str "boom")])
        none 7 = .ok
      { activities := [⟨7, "error",
          .str ("Agent error: " ++ strTake (errMessageOf
            (propOf (JVal.obj [("type", JVal.str "result"), ("subtype", JVal.str "boom")]) "errors")
            "boom") 200), none, none⟩],
        errorMessage := some (.str (errMessageOf
          (propOf (JVal.obj [("type", JVal.str "result"), ("subtype", JVal.str "boom")]) "errors")
          "boom")) }
    ∧ (strTake (errMessageOf
        (propOf (JVal.obj [("type", JVal.str "result"), ("subtype", JVal.str "boom")]) "errors")
        "boom") 200).length ≤ 200 :=
  claim_C8 (JVal.obj [("type", JVal.str "result"), ("subtype", JVal.str "boom")]) none 7 "boom"
    rfl rfl (by decide) (Or.inl rfl)

/-- C4 counterexample: for a prefixed path the summary value is not merely the
raw value with the cwd prefix removed — the code also removes one following
`/`, so the claimed value `/src/app.ts` differs from the actual
`src/app.ts`. -/
theorem claim_C4_counterexample :
    summarizeToolUse (JVal.str "Read")
        (JVal.obj [("file_path", JVal.str "/home/proj/src/app.ts")]) (some "/home/proj")
      = Except.ok "Read: src/app.ts"
    ∧ strippedOnceClaim "/home/proj/src/app.ts" "/home/proj" = "/src/app.ts"
    ∧ ("/src/app.ts" : String) ≠ "src/app.ts" :=
  ⟨rfl, by decide, by decide⟩

/-- C4 amended: for every tool in the summary-field table, the summary is the
tool name, a colon, and the raw field value transformed as follows — a
non-empty given cwd that prefixes the value is stripped exactly once together
with at most one immediately following `/`; with no cwd, an empty cwd, or a
non-prefixed value the value appears unchanged. -/
theorem claim_C4 (name field : String) (input : JVal) (cwd : Option String)
    (h : TOOL_SUMMARY_FIELDS.find? (fun e => e.1 == name) = some (name, field)) :
    summarizeToolUse (JVal.str name) input cwd =
      .ok (name ++ ": " ++ amendedStrip (rawSummaryValue input field) cwd) := by
  unfold summarizeToolUse amendedStrip rawSummaryValue
  simp only [jsToString]
  rw [h]

/-- C4 witness for the amended claim: a prefixed shell command is stripped of
the cwd and the separator. -/
theorem claim_C4_witness :
    summarizeToolUse (JVal.str "Bash") (JVal.obj [("command", JVal.str "/w/run.sh")]) (some "/w") =
      .ok ("Bash" ++ ": " ++
        amendedStrip (rawSummaryValue (JVal.obj [("command", JVal.str "/w/run.sh")]) "command")
          (some "/w")) :=
  claim_C4 "Bash" "command" (JVal.obj [("command", JVal.str "/w/run.sh")]) (some "/w") rfl

/-- C10: for every tool in the summary-field table, a non-object input or a
nullish/absent table field never raises and produces the bare
`<toolName>: ` summary with an empty value part. -/
theorem claim_C10 (name field : String) (input : JVal) (cwd : Option String)
    (h : TOOL_SUMMARY_FIELDS.find? (fun e => e.1 == name) = some (name, field))
    (hv : isNullish (propOf (objOrEmpty input) field) = true) :
    summarizeToolUse (JVal.str name) input cwd = .ok (name ++ ": ") := by
  have hguard : ∀ c : String, (c != "" && jsStartsWith "" c) = false := by
    intro c
    by_cases hc : c = ""
    · subst hc
      rfl
    · have hcd : c.data ≠ [] := fun hd => hc (eq_empty_of_data_eq_nil c hd)
      have hpre : jsStartsWith "" c = false := by
        unfold jsStartsWith
        cases hd : c.data with
        | nil => exact absurd hd hcd
        | cons a as => rfl
      simp [hpre]
  unfold summarizeToolUse
  simp only [jsToString]
  rw [h]
  simp only [hv, if_true]
  cases cwd with
  | none => simp [jsToString, String.append_empty]
  | some c => simp [jsToString, hguard c, String.append_empty]

/-- C10 witness: a primitive input for a table tool gives the bare summary. -/
theorem claim_C10_witness :
    summarizeToolUse (JVal.str "Read") (JVal.num 3) none = .ok ("Read" ++ ": ") :=
  claim_C10 "Read" "file_path" (JVal.num 3) none rfl rfl

/-- C9: `renderPrompt` substitutes sequentially, one key at a time over the
whole intermediate string — the placeholder for B injected by the value of
the earlier key A is expanded by the later pass for B, which simultaneous
substitution would leave in place. -/
theorem claim_C9 :
    renderPrompt "\x7b\x7bA\x7d\x7d" [("A", "\x7b\x7bB\x7d\x7d"), ("B", "hello")] = "hello"
    ∧ sanitizePromptValue "\x7b\x7bB\x7d\x7d" = "\x7b\x7bB\x7d\x7d"
    ∧ ("hello" : String) ≠ "\x7b\x7bB\x7d\x7d" := by
  refine ⟨by decide, by decide, by decide⟩
